import Mathlib

/-!
Verification of the multi-frame-streaming ingestion pipeline.

The repository has two stages:
* a streaming partitioner (read-file.py) that splits a huge delimited file
  into size-capped partition files, and
* a transform-and-load stage (script/import-clean-data.py, with an older
  variant script/import_csv_postgres.py) that reads partitions, derives
  fields, validates rows and submits batches to a database sink.

This file embeds the pure logic of both stages and proves the spec claims
about them.  Python string primitives (strip, replace, int parsing) are
modelled explicitly; machine I/O (file handles, the database connection)
is modelled as explicit state: written partitions are lists of rows, the
sink is a list of committed batches.
-/


/-! ## Embedded definitions -/


def isPySpace (c : Char) : Bool :=
  c = ' ' || c = '\t' || c = '\n' || c = '\r' || c = '\x0b' || c = '\x0c'

def stripChars (cs : List Char) : List Char :=
  ((cs.dropWhile isPySpace).reverse.dropWhile isPySpace).reverse

def pyStrip (s : String) : String :=
  ⟨stripChars s.data⟩

def removeCommas (s : String) : String :=
  ⟨s.data.filter (fun c => c ≠ ',')⟩

def digitsToNat (ds : List Char) : Nat :=
  ds.foldl (fun n c => 10 * n + (c.toNat - 48)) 0

def noDoubleUnderscore : List Char → Bool
  | [] => true
  | [_] => true
  | a :: b :: rest => !(a = '_' && b = '_') && noDoubleUnderscore (b :: rest)

def pyIntDigits (cs : List Char) : Option Nat :=
  let ds := cs.filter (fun c => c ≠ '_')
  if cs = [] then none
  else if cs.head? = some '_' || cs.getLast? = some '_' then none
  else if !noDoubleUnderscore cs then none
  else if !ds.all Char.isDigit then none
  else some (digitsToNat ds)

def pyIntParse (s : String) : Option Int :=
  match stripChars s.data with
  | '+' :: rest => (pyIntDigits rest).map (fun n => (n : Int))
  | '-' :: rest => (pyIntDigits rest).map (fun n => -(n : Int))
  | rest => (pyIntDigits rest).map (fun n => (n : Int))

def isIdChar (c : Char) : Bool :=
  ('a' ≤ c && c ≤ 'z') || ('0' ≤ c && c ≤ '9')

def startsWithVideoDot (cs : List Char) : Bool :=
  match cs with
  | 'v' :: 'i' :: 'd' :: 'e' :: 'o' :: '.' :: _ => true
  | _ => false

def matchIdAt (cs : List Char) : Option (List Char) :=
  if startsWithVideoDot cs then
    let run := (cs.drop 6).takeWhile isIdChar
    if run = [] then none else some run
  else none

def searchVideoId : List Char → Option (List Char)
  | [] => none
  | c :: rest =>
    match matchIdAt (c :: rest) with
    | some r => some r
    | none => searchVideoId rest

def extract_video_id (url : String) : Option String :=
  if url = "" then none
  else
    match searchVideoId url.data with
    | some cs => some ⟨cs⟩
    | none => none

def extract_video_id_pg (url : String) : Option String :=
  match searchVideoId url.data with
  | some cs => some ⟨cs⟩
  | none => none

def iframeTemplate (video_id : String) : String :=
  "<iframe src=\"https://www.xvideos.com/embedframe/" ++ video_id ++
    "\" frameborder=\"0\" width=\"510\" height=\"400\" scrolling=\"no\" allowfullscreen=\"allowfullscreen\"></iframe>"

def construct_iframe (video_id : Option String) : Option String :=
  match video_id with
  | none => none
  | some s => if s = "" then none else some (iframeTemplate s)

def pyOptStr (v : Option String) : String :=
  match v with
  | none => "None"
  | some s => s

def construct_iframe_pg (video_id : Option String) : String :=
  iframeTemplate (pyOptStr video_id)

def parse_duration (duration_str : String) : Option Nat :=
  if duration_str = "" then none
  else
    let ds := (duration_str.data.dropWhile (fun c => !c.isDigit)).takeWhile Char.isDigit
    if ds = [] then none else some (digitsToNat ds)

def parse_views (views_str : String) : Int :=
  if views_str = "" then 0
  else
    match pyIntParse (pyStrip (removeCommas views_str)) with
    | some n => n
    | none => 0

def parse_views_pg (views_str : String) : Option Int :=
  if views_str = "" then some 0
  else pyIntParse (removeCommas views_str)

def COLUMNS : List (Nat × String) :=
  [(0, "video_url"), (1, "title"), (2, "duration"), (3, "thumbnail_url"),
   (4, "embed_code"), (5, "tags"), (6, "actors"), (7, "views"),
   (8, "category"), (9, "quality"), (10, "uploader"), (11, "empty_field"),
   (12, "publish_date"), (13, "thumbnail_url_2"), (14, "status")]

def max_col_index : Nat :=
  (COLUMNS.map (fun c => c.1)).foldl Nat.max 0

def ROWS_PER_FILE : Nat := 1000000

def header : List String :=
  COLUMNS.map (fun c => c.2)

def sanitize_row (row : List String) : Option (List String) :=
  if max_col_index + 1 ≤ row.length then
    some (COLUMNS.map (fun c => pyStrip (row.getD c.1 "")))
  else none

structure PartState where
  file_index : Nat
  row_in_file : Nat
  processed : Nat
  closed_files : List (List (List String))
  current_file : List (List String)
deriving DecidableEq

def initPartState : PartState :=
  ⟨1, 0, 0, [], [header]⟩

def partStep (rows_per_file : Nat) (s : PartState) (row : List String) : PartState :=
  let s1 : PartState := { s with processed := s.processed + 1 }
  let s2 : PartState :=
    if rows_per_file ≤ s1.row_in_file then
      { s1 with
        file_index := s1.file_index + 1,
        row_in_file := 0,
        closed_files := s1.closed_files ++ [s1.current_file],
        current_file := [header] }
    else s1
  match sanitize_row row with
  | some cleaned =>
    { s2 with
      row_in_file := s2.row_in_file + 1,
      current_file := s2.current_file ++ [cleaned] }
  | none => s2

def partRun (rows_per_file : Nat) (rows : List (List String)) : PartState :=
  rows.foldl (partStep rows_per_file) initPartState

def allPartitions (s : PartState) : List (List (List String)) :=
  s.closed_files ++ [s.current_file]

def dataRowCount (p : List (List String)) : Nat :=
  p.length - 1

def malformedCount (rows : List (List String)) : Nat :=
  (rows.filter (fun r => r.length < max_col_index + 1)).length

def PartBasic (s : PartState) : Prop :=
  s.current_file.length = s.row_in_file + 1 ∧ s.file_index = s.closed_files.length + 1

def PartCapInv (cap : Nat) (s : PartState) : Prop :=
  s.row_in_file ≤ cap ∧ ∀ p ∈ s.closed_files, dataRowCount p = cap

def totalDataRows (s : PartState) : Nat :=
  ((allPartitions s).map dataRowCount).sum

structure CsvRow where
  video_url : String
  title : String
  duration : String
  thumbnail_url : String
  embed_code : String
  tags : String
  actors : String
  views : String
  category : String
  quality : String
  uploader : String
  publish_date : String
  thumbnail_url_2 : String
deriving DecidableEq

structure MediaRecord where
  title : String
  source_url : String
  thumbnail_url : String
  duration : Option Nat
  category : String
  iframe : Option String
  tags : String
  performers : String
  quality : String
  uploader : String
  publish_date : String
  views : Int
deriving DecidableEq

def processRow (row : CsvRow) : Option MediaRecord :=
  let video_url := pyStrip row.video_url
  let title := pyStrip row.title
  let duration_str := pyStrip row.duration
  let thumbnail_url := pyStrip row.thumbnail_url
  let tags := pyStrip row.tags
  let actors := pyStrip row.actors
  let views_str := pyStrip row.views
  let category := pyStrip row.category
  let quality := pyStrip row.quality
  let uploader := pyStrip row.uploader
  let publish_date := pyStrip row.publish_date
  let thumbnail_url_2 := pyStrip row.thumbnail_url_2
  if title = "" ∨ video_url = "" then none
  else
    let video_id := extract_video_id video_url
    let iframe := construct_iframe video_id
    let duration := parse_duration duration_str
    let views := parse_views views_str
    let final_thumbnail := if thumbnail_url_2 ≠ "" then thumbnail_url_2 else thumbnail_url
    if final_thumbnail = "" then none
    else
      some ⟨title, video_url, final_thumbnail, duration, category, iframe,
            tags, actors, quality, uploader, publish_date, views⟩

def gateB (row : CsvRow) : Bool :=
  (pyStrip row.title != "") && (pyStrip row.video_url != "") &&
    ((if pyStrip row.thumbnail_url_2 ≠ "" then pyStrip row.thumbnail_url_2
      else pyStrip row.thumbnail_url) != "")

structure LoadState where
  imported : Nat
  skipped : Nat
  batch : List MediaRecord
  committed : List (List MediaRecord)
deriving DecidableEq

def initLoadState : LoadState :=
  ⟨0, 0, [], []⟩

def loadStep (batch_size : Nat) (sinkOk : Bool) (s : LoadState) (row : CsvRow) : LoadState :=
  match processRow row with
  | none => { s with skipped := s.skipped + 1 }
  | some m =>
    let batch := s.batch ++ [m]
    if batch_size ≤ batch.length then
      if sinkOk then
        { s with
          batch := [],
          committed := s.committed ++ [batch],
          imported := s.imported + batch.length }
      else
        { s with batch := batch, skipped := s.skipped + 1 }
    else { s with batch := batch }

def flushRemaining (s : LoadState) : LoadState :=
  if s.batch = [] then s
  else
    { s with
      committed := s.committed ++ [s.batch],
      imported := s.imported + s.batch.length }

def importRun (batch_size : Nat) (rows : List CsvRow) : LoadState :=
  flushRemaining (rows.foldl (loadStep batch_size true) initLoadState)

def demoRow : CsvRow :=
  ⟨"https://site/video.abc123", "X", "", "", "", "", "", "", "", "", "", "", "https://t/img.jpg"⟩

def demoRecord : MediaRecord :=
  ⟨"X", "https://site/video.abc123", "https://t/img.jpg", none, "",
   some (iframeTemplate "abc123"), "", "", "", "", "", 0⟩


/-! ## Helper lemmas -/


lemma processRow_isSome (r : CsvRow) : (processRow r).isSome = gateB r := by
  unfold processRow gateB
  by_cases h1 : pyStrip r.title = "" <;> by_cases h2 : pyStrip r.video_url = "" <;>
    by_cases h3 : pyStrip r.thumbnail_url_2 = "" <;>
      by_cases h4 : pyStrip r.thumbnail_url = "" <;>
        simp [h1, h2, h3, h4]

lemma processRow_eq (r : CsvRow) :
    processRow r
      = if pyStrip r.title = "" ∨ pyStrip r.video_url = "" then none
        else if (if pyStrip r.thumbnail_url_2 ≠ "" then pyStrip r.thumbnail_url_2
                 else pyStrip r.thumbnail_url) = "" then none
        else some ⟨pyStrip r.title, pyStrip r.video_url,
          (if pyStrip r.thumbnail_url_2 ≠ "" then pyStrip r.thumbnail_url_2
           else pyStrip r.thumbnail_url),
          parse_duration (pyStrip r.duration), pyStrip r.category,
          construct_iframe (extract_video_id (pyStrip r.video_url)),
          pyStrip r.tags, pyStrip r.actors, pyStrip r.quality, pyStrip r.uploader,
          pyStrip r.publish_date, parse_views (pyStrip r.views)⟩ := rfl

lemma loadStep_none (bs : Nat) (ok : Bool) (s : LoadState) (r : CsvRow)
    (h : processRow r = none) :
    loadStep bs ok s r = { s with skipped := s.skipped + 1 } := by
  simp [loadStep, h]

lemma loadStep_some_notfull (bs : Nat) (ok : Bool) (s : LoadState) (r : CsvRow)
    (m : MediaRecord) (h : processRow r = some m)
    (hf : ¬ bs ≤ (s.batch ++ [m]).length) :
    loadStep bs ok s r = { s with batch := s.batch ++ [m] } := by
  have hf2 : ¬ bs ≤ s.batch.length + 1 := by simpa using hf
  simp [loadStep, h, hf2]

lemma loadStep_some_full_ok (bs : Nat) (s : LoadState) (r : CsvRow)
    (m : MediaRecord) (h : processRow r = some m)
    (hf : bs ≤ (s.batch ++ [m]).length) :
    loadStep bs true s r
      = { s with
          batch := [],
          committed := s.committed ++ [s.batch ++ [m]],
          imported := s.imported + (s.batch ++ [m]).length } := by
  have hf2 : bs ≤ s.batch.length + 1 := by simpa using hf
  simp [loadStep, h, hf2]

lemma loadStep_some_full_fail (bs : Nat) (s : LoadState) (r : CsvRow)
    (m : MediaRecord) (h : processRow r = some m)
    (hf : bs ≤ (s.batch ++ [m]).length) :
    loadStep bs false s r
      = { s with batch := s.batch ++ [m], skipped := s.skipped + 1 } := by
  have hf2 : bs ≤ s.batch.length + 1 := by simpa using hf
  simp [loadStep, h, hf2]

lemma loadRun_fold (bs : Nat) (rows : List CsvRow) (s : LoadState) :
    (rows.foldl (loadStep bs true) s).skipped
        = s.skipped + (rows.filter (fun r => !gateB r)).length ∧
    (rows.foldl (loadStep bs true) s).committed.flatten
          ++ (rows.foldl (loadStep bs true) s).batch
        = s.committed.flatten ++ s.batch ++ rows.filterMap processRow ∧
    (rows.foldl (loadStep bs true) s).imported
          + (rows.foldl (loadStep bs true) s).batch.length
        = s.imported + s.batch.length + (rows.filterMap processRow).length := by
  induction rows generalizing s with
  | nil => simp
  | cons r rows ih =>
    have hgate := processRow_isSome r
    rw [List.foldl_cons]
    cases hpr : processRow r with
    | none =>
      have hg : gateB r = false := by rw [hpr] at hgate; simpa using hgate.symm
      rw [loadStep_none bs true s r hpr]
      have h' := ih { s with skipped := s.skipped + 1 }
      refine ⟨?_, ?_, ?_⟩
      · rw [h'.1]; simp [List.filter_cons, hg]; omega
      · rw [h'.2.1]; simp [List.filterMap_cons, hpr]
      · rw [h'.2.2]; simp [List.filterMap_cons, hpr]
    | some m =>
      have hg : gateB r = true := by rw [hpr] at hgate; simpa using hgate.symm
      by_cases hfull : bs ≤ (s.batch ++ [m]).length
      · rw [loadStep_some_full_ok bs s r m hpr hfull]
        have h' := ih { s with
          batch := [],
          committed := s.committed ++ [s.batch ++ [m]],
          imported := s.imported + (s.batch ++ [m]).length }
        refine ⟨?_, ?_, ?_⟩
        · rw [h'.1]; simp [List.filter_cons, hg]
        · rw [h'.2.1]; simp [List.filterMap_cons, hpr, List.flatten_append]
        · rw [h'.2.2]; simp [List.filterMap_cons, hpr]; omega
      · rw [loadStep_some_notfull bs true s r m hpr hfull]
        have h' := ih { s with batch := s.batch ++ [m] }
        refine ⟨?_, ?_, ?_⟩
        · rw [h'.1]; simp [List.filter_cons, hg]
        · rw [h'.2.1]; simp [List.filterMap_cons, hpr]
        · rw [h'.2.2]; simp [List.filterMap_cons, hpr]; omega

lemma flushRemaining_spec (t : LoadState) :
    (flushRemaining t).skipped = t.skipped ∧
    (flushRemaining t).committed.flatten = t.committed.flatten ++ t.batch ∧
    (flushRemaining t).imported = t.imported + t.batch.length := by
  unfold flushRemaining
  split <;> rename_i hb <;> simp [hb, List.flatten_append]

lemma partStep_wf (cap : Nat) (s : PartState) (row cleaned : List String)
    (h : sanitize_row row = some cleaned) (hr : ¬ cap ≤ s.row_in_file) :
    partStep cap s row
      = { s with
          processed := s.processed + 1,
          row_in_file := s.row_in_file + 1,
          current_file := s.current_file ++ [cleaned] } := by
  simp [partStep, h, hr]

lemma partStep_wf_rot (cap : Nat) (s : PartState) (row cleaned : List String)
    (h : sanitize_row row = some cleaned) (hr : cap ≤ s.row_in_file) :
    partStep cap s row
      = ⟨s.file_index + 1, 1, s.processed + 1,
         s.closed_files ++ [s.current_file], [header, cleaned]⟩ := by
  simp [partStep, h, hr]

lemma partStep_mal (cap : Nat) (s : PartState) (row : List String)
    (h : sanitize_row row = none) (hr : ¬ cap ≤ s.row_in_file) :
    partStep cap s row = { s with processed := s.processed + 1 } := by
  simp [partStep, h, hr]

lemma partStep_mal_rot (cap : Nat) (s : PartState) (row : List String)
    (h : sanitize_row row = none) (hr : cap ≤ s.row_in_file) :
    partStep cap s row
      = ⟨s.file_index + 1, 0, s.processed + 1,
         s.closed_files ++ [s.current_file], [header]⟩ := by
  simp [partStep, h, hr]

lemma totalDataRows_eq (s : PartState) :
    totalDataRows s = (s.closed_files.map dataRowCount).sum + dataRowCount s.current_file := by
  simp [totalDataRows, allPartitions]

lemma partStep_basic (cap : Nat) (s : PartState) (row : List String)
    (h : PartBasic s) : PartBasic (partStep cap s row) := by
  obtain ⟨h1, h2⟩ := h
  cases hs : sanitize_row row with
  | none =>
    by_cases hr : cap ≤ s.row_in_file
    · rw [partStep_mal_rot cap s row hs hr]
      refine ⟨rfl, by simp [h2]⟩
    · rw [partStep_mal cap s row hs hr]
      exact ⟨h1, h2⟩
  | some cleaned =>
    by_cases hr : cap ≤ s.row_in_file
    · rw [partStep_wf_rot cap s row cleaned hs hr]
      refine ⟨rfl, by simp [h2]⟩
    · rw [partStep_wf cap s row cleaned hs hr]
      refine ⟨by simp [h1], h2⟩

lemma partStep_total (cap : Nat) (s : PartState) (row : List String)
    (h1 : s.current_file.length = s.row_in_file + 1) :
    totalDataRows (partStep cap s row)
      = totalDataRows s + (if (sanitize_row row).isSome then 1 else 0) ∧
    (partStep cap s row).processed = s.processed + 1 := by
  cases hs : sanitize_row row with
  | none =>
    by_cases hr : cap ≤ s.row_in_file
    · rw [partStep_mal_rot cap s row hs hr]
      refine ⟨?_, rfl⟩
      simp [totalDataRows_eq, dataRowCount]
    · rw [partStep_mal cap s row hs hr]
      refine ⟨by simp [totalDataRows_eq], rfl⟩
  | some cleaned =>
    by_cases hr : cap ≤ s.row_in_file
    · rw [partStep_wf_rot cap s row cleaned hs hr]
      refine ⟨?_, rfl⟩
      simp [totalDataRows_eq, dataRowCount]
    · rw [partStep_wf cap s row cleaned hs hr]
      refine ⟨?_, rfl⟩
      simp only [totalDataRows_eq, dataRowCount]
      simp [h1]
      omega

lemma partRun_fold_total (cap : Nat) (rows : List (List String)) :
    ∀ s : PartState, PartBasic s →
      totalDataRows (rows.foldl (partStep cap) s)
          = totalDataRows s + (rows.filter (fun r => (sanitize_row r).isSome)).length ∧
      (rows.foldl (partStep cap) s).processed = s.processed + rows.length ∧
      PartBasic (rows.foldl (partStep cap) s) := by
  induction rows with
  | nil => intro s hb; simpa using hb
  | cons r rows ih =>
    intro s hb
    obtain ⟨ht, hp⟩ := partStep_total cap s r hb.1
    obtain ⟨ih1, ih2, ih3⟩ := ih (partStep cap s r) (partStep_basic cap s r hb)
    rw [List.foldl_cons]
    refine ⟨?_, ?_, ih3⟩
    · rw [ih1, ht, List.filter_cons]
      by_cases h : (sanitize_row r).isSome <;> simp [h] <;> omega
    · rw [ih2, hp]; simp; omega

lemma wf_mal_split (rows : List (List String)) :
    (rows.filter (fun r => (sanitize_row r).isSome)).length + malformedCount rows
      = rows.length := by
  induction rows with
  | nil => rfl
  | cons r rows ih =>
    unfold malformedCount at ih ⊢
    rw [List.filter_cons, List.filter_cons]
    by_cases h : max_col_index + 1 ≤ r.length
    · have h1 : (sanitize_row r).isSome = true := by simp [sanitize_row, h]
      have h2 : decide (r.length < max_col_index + 1) = false := by
        simp only [decide_eq_false_iff_not]; omega
      simp only [h1, h2, if_true, if_false, Bool.false_eq_true, List.length_cons]
      omega
    · have h1 : (sanitize_row r).isSome = false := by simp [sanitize_row, h]
      have h2 : decide (r.length < max_col_index + 1) = true := by
        simp only [decide_eq_true_eq]; omega
      simp only [h1, h2, if_true, if_false, Bool.false_eq_true, List.length_cons]
      omega

lemma partStep_cap (cap : Nat) (s : PartState) (row : List String)
    (hcap : 0 < cap) (hb : PartBasic s) (h : PartCapInv cap s) :
    PartCapInv cap (partStep cap s row) := by
  obtain ⟨hle, hcl⟩ := h
  have hcur : dataRowCount s.current_file = s.row_in_file := by
    simp [dataRowCount, hb.1]
  cases hs : sanitize_row row with
  | none =>
    by_cases hr : cap ≤ s.row_in_file
    · rw [partStep_mal_rot cap s row hs hr]
      refine ⟨Nat.zero_le cap, ?_⟩
      intro p hp
      rcases List.mem_append.1 hp with hp | hp
      · exact hcl p hp
      · rw [List.mem_singleton.1 hp, hcur]; omega
    · rw [partStep_mal cap s row hs hr]
      exact ⟨hle, hcl⟩
  | some cleaned =>
    by_cases hr : cap ≤ s.row_in_file
    · rw [partStep_wf_rot cap s row cleaned hs hr]
      refine ⟨hcap, ?_⟩
      intro p hp
      rcases List.mem_append.1 hp with hp | hp
      · exact hcl p hp
      · rw [List.mem_singleton.1 hp, hcur]; omega
    · rw [partStep_wf cap s row cleaned hs hr]
      refine ⟨?_, hcl⟩
      show s.row_in_file + 1 ≤ cap
      omega

lemma partRun_fold_inv (cap : Nat) (rows : List (List String)) (hcap : 0 < cap) :
    ∀ s : PartState, PartBasic s → PartCapInv cap s →
      PartBasic (rows.foldl (partStep cap) s) ∧
      PartCapInv cap (rows.foldl (partStep cap) s) := by
  induction rows with
  | nil => intro s hb hc; exact ⟨hb, hc⟩
  | cons r rows ih =>
    intro s hb hc
    rw [List.foldl_cons]
    exact ih (partStep cap s r) (partStep_basic cap s r hb)
      (partStep_cap cap s r hcap hb hc)

lemma sanitize_row_isSome_of (r : List String) (h : max_col_index + 1 ≤ r.length) :
    ∃ cleaned, sanitize_row r = some cleaned := by
  refine ⟨COLUMNS.map (fun c => pyStrip (r.getD c.1 "")), ?_⟩
  simp [sanitize_row, h]

lemma sanitize_row_short (r : List String) (h : r.length < max_col_index + 1) :
    sanitize_row r = none := by
  simp [sanitize_row]
  omega

lemma partRun_wf_formula (rows : List (List String))
    (hwf : ∀ r ∈ rows, max_col_index + 1 ≤ r.length) (hne : rows ≠ []) :
    (partRun 1000000 rows).processed = rows.length ∧
    (partRun 1000000 rows).row_in_file = (rows.length - 1) % 1000000 + 1 ∧
    (partRun 1000000 rows).file_index = (rows.length - 1) / 1000000 + 1 ∧
    (partRun 1000000 rows).closed_files.map dataRowCount
        = List.replicate ((rows.length - 1) / 1000000) 1000000 ∧
    (partRun 1000000 rows).current_file.length = (partRun 1000000 rows).row_in_file + 1 := by
  induction rows using List.reverseRecOn with
  | nil => exact absurd rfl hne
  | append_singleton l a ihl =>
    have hwa : max_col_index + 1 ≤ a.length := hwf a (by simp)
    obtain ⟨ca, hca⟩ := sanitize_row_isSome_of a hwa
    rcases Decidable.em (l = []) with hl | hl
    · subst hl
      unfold partRun
      simp only [List.nil_append, List.foldl_cons, List.foldl_nil]
      rw [partStep_wf 1000000 initPartState a ca hca (by simp [initPartState])]
      refine ⟨rfl, rfl, ?_, ?_, rfl⟩
      · simp [initPartState]
      · simp [initPartState]
    · obtain ⟨ih1, ih2, ih3, ih4, ih5⟩ := ihl (fun r hr => hwf r (by simp [hr])) hl
      have hlen1 : 1 ≤ l.length := by
        rcases l with _ | ⟨x, xs⟩
        · exact absurd rfl hl
        · simp
      unfold partRun at *
      rw [List.foldl_append, List.foldl_cons, List.foldl_nil]
      set t := l.foldl (partStep 1000000) initPartState with htdef
      set n := l.length - 1 with hndef
      have hcur : dataRowCount t.current_file = t.row_in_file := by
        simp [dataRowCount, ih5]
      by_cases hrot : (1000000 : Nat) ≤ t.row_in_file
      · have hmod : n % 1000000 = 999999 := by omega
        rw [partStep_wf_rot 1000000 t a ca hca hrot]
        have hlen : (l ++ [a]).length - 1 = n + 1 := by simp; omega
        refine ⟨?_, ?_, ?_, ?_, ?_⟩
        · simp [ih1]
        · simp only [hlen]
          have : (n + 1) % 1000000 = 0 := by omega
          simp [this]
        · simp only [hlen]
          have : (n + 1) / 1000000 = n / 1000000 + 1 := by omega
          simp [this, ih3]
        · simp only [hlen, List.map_append, ih4]
          have h1 : dataRowCount t.current_file = 1000000 := by omega
          have h2 : (n + 1) / 1000000 = n / 1000000 + 1 := by omega
          rw [h2, List.replicate_succ']
          simp [h1]
        · rfl
      · rw [partStep_wf 1000000 t a ca hca hrot]
        have hlen : (l ++ [a]).length - 1 = n + 1 := by simp; omega
        have hmod : n % 1000000 < 999999 := by omega
        refine ⟨?_, ?_, ?_, ?_, ?_⟩
        · simp [ih1]
        · simp only [hlen]
          have : (n + 1) % 1000000 = n % 1000000 + 1 := by omega
          simp [this, ih2]
        · simp only [hlen]
          have : (n + 1) / 1000000 = n / 1000000 := by omega
          simp [this, ih3]
        · simp only [hlen]
          have : (n + 1) / 1000000 = n / 1000000 := by omega
          simp [this, ih4]
        · simp only []
          show (t.current_file ++ [ca]).length = t.row_in_file + 1 + 1
          simp [ih5]

lemma partRun_malformed_from (cap : Nat) (rows : List (List String)) :
    ∀ s : PartState, s.row_in_file < cap →
      (∀ r ∈ rows, sanitize_row r = none) →
      rows.foldl (partStep cap) s = { s with processed := s.processed + rows.length } := by
  induction rows with
  | nil => intro s _ _; simp
  | cons r rows ih =>
    intro s hlt hmal
    rw [List.foldl_cons, partStep_mal cap s r (hmal r (by simp)) (by omega)]
    rw [ih { s with processed := s.processed + 1 } hlt
      (fun x hx => hmal x (by simp [hx]))]
    simp
    omega

lemma allPartitions_length (s : PartState) :
    (allPartitions s).length = s.closed_files.length + 1 := by
  simp [allPartitions]

lemma sum_map_dataRowCount_const (l : List (List (List String))) (c : Nat)
    (h : ∀ p ∈ l, dataRowCount p = c) :
    (l.map dataRowCount).sum = l.length * c := by
  induction l with
  | nil => simp
  | cons p l ih =>
    simp only [List.map_cons, List.sum_cons, List.length_cons,
      h p (by simp), ih (fun q hq => h q (by simp [hq]))]
    ring


/-! ## Claim theorems -/


/-- C1: in the batch loader of script/import-clean-data.py, a MediaRecord is appended to the batch (and so eventually committed) exactly when the stripped title, stripped source url and resolved thumbnail are all non-empty; every failing row bumps skipped_count by one and contributes to no batch, and imported counts exactly the accepted rows. -/
theorem loader_gate_governs_batch (batch_size : Nat) (rows : List CsvRow) :
    (∀ r : CsvRow, (processRow r).isSome = gateB r) ∧
    (importRun batch_size rows).skipped
        = (rows.filter (fun r => !gateB r)).length ∧
    (importRun batch_size rows).committed.flatten = rows.filterMap processRow ∧
    (importRun batch_size rows).imported = (rows.filterMap processRow).length := by
  obtain ⟨h1, h2, h3⟩ := loadRun_fold batch_size rows initLoadState
  obtain ⟨f1, f2, f3⟩ :=
    flushRemaining_spec (rows.foldl (loadStep batch_size true) initLoadState)
  have e1 : initLoadState.skipped = 0 := rfl
  have e2 : initLoadState.imported = 0 := rfl
  have e3 : initLoadState.batch = ([] : List MediaRecord) := rfl
  have e4 : initLoadState.committed = ([] : List (List MediaRecord)) := rfl
  simp only [e1, e2, e3, e4, List.flatten_nil, List.nil_append, List.length_nil,
    Nat.zero_add, Nat.add_zero] at h1 h2 h3
  unfold importRun
  exact ⟨processRow_isSome, by rw [f1, h1], by rw [f2, h2], by rw [f3, h3]⟩

/-- C2: at every point of the partitioner run (after each prefix of the input) row_in_current_partition stays at or below the configured cap, and every partition except possibly the last holds exactly cap data rows. -/
theorem partition_cap_invariant (cap : Nat) (rows pre suf : List (List String))
    (hcap : 0 < cap) (hsplit : rows = pre ++ suf) :
    (partRun cap pre).row_in_file ≤ cap ∧
    ∀ p ∈ (allPartitions (partRun cap rows)).dropLast, dataRowCount p = cap := by
  have hpre := partRun_fold_inv cap pre hcap initPartState ⟨rfl, rfl⟩ ⟨Nat.zero_le cap, by simp [initPartState]⟩
  have hall := partRun_fold_inv cap rows hcap initPartState ⟨rfl, rfl⟩ ⟨Nat.zero_le cap, by simp [initPartState]⟩
  refine ⟨hpre.2.1, ?_⟩
  intro p hp
  have : (allPartitions (partRun cap rows)).dropLast = (partRun cap rows).closed_files := by
    simp [allPartitions]
  rw [this] at hp
  exact hall.2.2 p hp

/-- Witness for C2 at cap 2 on a concrete five-row stream. -/
theorem partition_cap_invariant_witness :
    (partRun 2 [List.replicate 15 "x", List.replicate 15 "x", List.replicate 15 "x"]).row_in_file ≤ 2 ∧
    ∀ p ∈ (allPartitions (partRun 2
        [List.replicate 15 "x", List.replicate 15 "x", List.replicate 15 "x",
         List.replicate 15 "x", List.replicate 15 "x"])).dropLast,
      dataRowCount p = 2 :=
  partition_cap_invariant 2
    [List.replicate 15 "x", List.replicate 15 "x", List.replicate 15 "x",
     List.replicate 15 "x", List.replicate 15 "x"]
    [List.replicate 15 "x", List.replicate 15 "x", List.replicate 15 "x"]
    [List.replicate 15 "x", List.replicate 15 "x"]
    (by decide) (by decide)

/-- C3 counterexample: the parse_views of script/import_csv_postgres.py has no exception handler, so on the non-numeric text abc it raises (modelled as none) instead of returning 0. -/
theorem parse_views_pg_raises_on_abc :
    parse_views_pg "abc" = none ∧ parse_views_pg "abc" ≠ some 0 := by decide

/-- C3 amended: the parse_views of script/import-clean-data.py is total and never raises, returning the comma-stripped integer when it parses and 0 otherwise, with the three stated sample values; the import_csv_postgres.py variant agrees on empty and parsable text but propagates an exception on text such as abc. -/
theorem parse_views_behavior :
    parse_views "1,234,567" = 1234567 ∧ parse_views "" = 0 ∧ parse_views "abc" = 0 ∧
    (∀ s n, pyIntParse (pyStrip (removeCommas s)) = some n → parse_views s = n) ∧
    (∀ s, pyIntParse (pyStrip (removeCommas s)) = none → parse_views s = 0) ∧
    parse_views_pg "1,234,567" = some 1234567 ∧ parse_views_pg "" = some 0 ∧
    parse_views_pg "abc" = none := by
  refine ⟨by decide, by decide, by decide, ?_, ?_, by decide, by decide, by decide⟩
  · intro s n h
    by_cases hs : s = ""
    · subst hs
      have he : pyIntParse (pyStrip (removeCommas "")) = none := rfl
      rw [he] at h
      exact Option.noConfusion h
    · unfold parse_views
      rw [if_neg hs, h]
  · intro s h
    by_cases hs : s = ""
    · subst hs; rfl
    · unfold parse_views
      rw [if_neg hs, h]

/-- Witness for C3 amended: the parsing branch at a concrete input. -/
theorem parse_views_behavior_witness : parse_views " 42 " = 42 :=
  parse_views_behavior.2.2.2.1 " 42 " 42 (by decide)

/-- C4: for every input stream and cap, the data rows over all partitions written plus the malformed lines (fewer than max(schema indices) + 1 fields) add up to rows_processed_total, which is the number of input lines. -/
theorem partition_row_conservation (cap : Nat) (rows : List (List String)) :
    ((allPartitions (partRun cap rows)).map dataRowCount).sum + malformedCount rows
        = (partRun cap rows).processed ∧
    (partRun cap rows).processed = rows.length := by
  obtain ⟨ht, hp, _⟩ :=
    partRun_fold_total cap rows initPartState ⟨rfl, rfl⟩
  have hw := wf_mal_split rows
  have h0 : totalDataRows initPartState = 0 := rfl
  have hpr0 : initPartState.processed = 0 := rfl
  unfold partRun
  rw [hpr0] at hp
  constructor
  · show totalDataRows (rows.foldl (partStep cap) initPartState) + _ = _
    rw [ht, h0, hp]; omega
  · rw [hp]; omega

/-- C5 counterexample: construct_iframe of script/import-clean-data.py returns none on the empty-string identifier, which is not none, so markup none does not imply identifier none. -/
theorem construct_iframe_empty_id_counterexample :
    construct_iframe (some "") = none ∧ some "" ≠ (none : Option String) := by decide

/-- C5 amended: the import-clean-data.py construct_iframe returns none exactly when the identifier is none or empty, and the fixed template on every non-empty identifier; the import_csv_postgres.py construct_iframe never returns none and interpolates even a missing identifier (as the text None) into the template. -/
theorem construct_iframe_behavior :
    (∀ v : Option String, construct_iframe v = none ↔ v = none ∨ v = some "") ∧
    (∀ vid : String, vid ≠ "" → construct_iframe (some vid) = some (iframeTemplate vid)) ∧
    construct_iframe_pg none = iframeTemplate "None" ∧
    construct_iframe_pg (some "abc123") = iframeTemplate "abc123" := by
  refine ⟨?_, ?_, rfl, rfl⟩
  · intro v
    cases v with
    | none => simp [construct_iframe]
    | some s =>
      by_cases h : s = "" <;> simp [construct_iframe, h]
  · intro vid h
    simp [construct_iframe, h]

/-- Witness for C5 amended at the identifier abc123. -/
theorem construct_iframe_behavior_witness :
    construct_iframe (some "abc123") = some (iframeTemplate "abc123") :=
  construct_iframe_behavior.2.1 "abc123" (by decide)

/-- C6 counterexample: a stream of 2500000 lines that contains malformed lines (here all of them) produces one partition, not three. -/
theorem partitioner_malformed_stream_counterexample :
    (List.replicate 2500000 ([] : List String)).length = 2500000 ∧
    malformedCount (List.replicate 2500000 ([] : List String)) = 2500000 ∧
    (allPartitions (partRun 1000000 (List.replicate 2500000 ([] : List String)))).length
        = 1 := by
  have hlen : (List.replicate 2500000 ([] : List String)).length = 2500000 :=
    List.length_replicate ..
  refine ⟨hlen, ?_, ?_⟩
  · unfold malformedCount
    rw [List.filter_replicate, if_pos (by decide), hlen]
  · rw [partRun, partRun_malformed_from 1000000 _ initPartState
      (by norm_num [initPartState])
      (fun r hr => by
        rw [List.eq_of_mem_replicate hr]
        exact sanitize_row_short [] (by decide))]
    simp [allPartitions, initPartState]

/-- C6 amended: a 2500000-line stream at cap 1000000 yields exactly three partitions of sizes 1000000, 1000000, 500000 when every line is well formed; with malformed lines present the run yields at most three partitions (never a fourth), every non-final partition still holding exactly the cap. -/
theorem partitioner_two_and_half_million (rows : List (List String))
    (hlen : rows.length = 2500000) :
    ((∀ r ∈ rows, max_col_index + 1 ≤ r.length) →
      (allPartitions (partRun ROWS_PER_FILE rows)).map dataRowCount
          = [1000000, 1000000, 500000] ∧
      (allPartitions (partRun ROWS_PER_FILE rows)).length = 3) ∧
    (allPartitions (partRun ROWS_PER_FILE rows)).length ≤ 3 ∧
    (∀ p ∈ (allPartitions (partRun ROWS_PER_FILE rows)).dropLast,
      dataRowCount p = ROWS_PER_FILE) := by
  have hRPF : ROWS_PER_FILE = 1000000 := rfl
  simp only [hRPF]
  have hinv := partRun_fold_inv 1000000 rows (by omega)
    initPartState ⟨rfl, rfl⟩ ⟨Nat.zero_le _, by simp [initPartState]⟩
  have htot := partRun_fold_total 1000000 rows initPartState ⟨rfl, rfl⟩
  constructor
  · intro hwf
    obtain ⟨h1, h2, h3, h4, h5⟩ := partRun_wf_formula rows hwf
      (by intro hnil; rw [hnil] at hlen; simp at hlen)
    constructor
    · simp only [allPartitions, List.map_append, h4, hlen]
      have e1 : (2500000 - 1) / 1000000 = 2 := by norm_num
      have e2 : (2500000 - 1) % 1000000 = 499999 := by norm_num
      rw [e1]
      have hc : dataRowCount (partRun 1000000 rows).current_file
          = (partRun 1000000 rows).row_in_file := by
        simp [dataRowCount, h5]
      rw [List.map_singleton, hc, h2, hlen, e2]
      rfl
    · rw [allPartitions_length,
        ← List.length_map (partRun 1000000 rows).closed_files dataRowCount, h4, hlen]
      simp
  · constructor
    · rw [allPartitions_length]
      have hsum := sum_map_dataRowCount_const (partRun 1000000 rows).closed_files
        1000000 hinv.2.2
      have hbound : totalDataRows (partRun 1000000 rows) ≤ rows.length := by
        rw [partRun, htot.1]
        have h0 : totalDataRows initPartState = 0 := rfl
        rw [h0]
        have := List.length_filter_le (fun r => (sanitize_row r).isSome) rows
        omega
      rw [totalDataRows_eq, hsum, hlen] at hbound
      omega
    · intro p hp
      have hdl : (allPartitions (partRun 1000000 rows)).dropLast
          = (partRun 1000000 rows).closed_files := by
        simp [allPartitions]
      rw [hdl] at hp
      exact hinv.2.2 p hp

/-- Witness for C6 amended on a concrete all-well-formed 2500000-line stream. -/
theorem partitioner_two_and_half_million_witness :
    ((∀ r ∈ List.replicate 2500000 (List.replicate 15 "x"), max_col_index + 1 ≤ r.length) →
      (allPartitions (partRun ROWS_PER_FILE (List.replicate 2500000 (List.replicate 15 "x")))).map dataRowCount
          = [1000000, 1000000, 500000] ∧
      (allPartitions (partRun ROWS_PER_FILE (List.replicate 2500000 (List.replicate 15 "x")))).length = 3) ∧
    (allPartitions (partRun ROWS_PER_FILE (List.replicate 2500000 (List.replicate 15 "x")))).length ≤ 3 ∧
    (∀ p ∈ (allPartitions (partRun ROWS_PER_FILE (List.replicate 2500000 (List.replicate 15 "x")))).dropLast,
      dataRowCount p = ROWS_PER_FILE) :=
  partitioner_two_and_half_million (List.replicate 2500000 (List.replicate 15 "x"))
    (List.length_replicate ..)

/-- C7: every record accepted by the loader carries the secondary thumbnail when that stripped field is non-empty and the primary otherwise; the record with title X, url https://site/video.abc123, empty primary and secondary https://t/img.jpg is imported with the secondary thumbnail, identifier abc123 and markup embedding abc123. -/
theorem thumbnail_resolution (r : CsvRow) (m : MediaRecord)
    (h : processRow r = some m) :
    m.thumbnail_url = (if pyStrip r.thumbnail_url_2 ≠ "" then pyStrip r.thumbnail_url_2
                       else pyStrip r.thumbnail_url) ∧
    processRow demoRow = some demoRecord ∧
    extract_video_id (pyStrip demoRow.video_url) = some "abc123" ∧
    demoRecord.thumbnail_url = pyStrip demoRow.thumbnail_url_2 ∧
    demoRecord.thumbnail_url = "https://t/img.jpg" ∧
    demoRecord.iframe = some (iframeTemplate "abc123") := by
  refine ⟨?_, by decide, by decide, by decide, by decide, by decide⟩
  rw [processRow_eq] at h
  split at h
  · exact Option.noConfusion h
  · split at h
    · cases Option.some.inj h
      simp [*]
    · split at h
      · exact Option.noConfusion h
      · cases Option.some.inj h
        simp [*]

/-- Witness for C7 at the demo record itself. -/
theorem thumbnail_resolution_witness :
    demoRecord.thumbnail_url
        = (if pyStrip demoRow.thumbnail_url_2 ≠ "" then pyStrip demoRow.thumbnail_url_2
           else pyStrip demoRow.thumbnail_url) ∧
    processRow demoRow = some demoRecord ∧
    extract_video_id (pyStrip demoRow.video_url) = some "abc123" ∧
    demoRecord.thumbnail_url = pyStrip demoRow.thumbnail_url_2 ∧
    demoRecord.thumbnail_url = "https://t/img.jpg" ∧
    demoRecord.iframe = some (iframeTemplate "abc123") :=
  thumbnail_resolution demoRow demoRecord (by decide)

/-- C8: a raw line with at least max(schema indices) + 1 fields sanitizes to the cleaned record whose k-th column is the stripped input field at the k-th schema index, in schema order; a shorter line is classified malformed, and the partition step on it writes nothing while still counting the line. -/
theorem sanitizer_contract (row : List String) :
    (match sanitize_row row with
     | some cleaned =>
         max_col_index + 1 ≤ row.length ∧
         cleaned.length = COLUMNS.length ∧
         ∀ k, k < COLUMNS.length →
           cleaned.getD k "" = pyStrip (row.getD (COLUMNS.getD k (0, "")).1 "")
     | none =>
         row.length < max_col_index + 1 ∧
         ∀ cap s, totalDataRows (partStep cap s row) = totalDataRows s ∧
                  (partStep cap s row).processed = s.processed + 1) := by
  by_cases h : max_col_index + 1 ≤ row.length
  · have hs : sanitize_row row = some (COLUMNS.map (fun c => pyStrip (row.getD c.1 ""))) := by
      simp [sanitize_row, h]
    rw [hs]
    show max_col_index + 1 ≤ row.length ∧
      (COLUMNS.map (fun c => pyStrip (row.getD c.1 ""))).length = COLUMNS.length ∧
      ∀ k, k < COLUMNS.length →
        (COLUMNS.map (fun c => pyStrip (row.getD c.1 ""))).getD k ""
          = pyStrip (row.getD (COLUMNS.getD k (0, "")).1 "")
    refine ⟨h, by simp, ?_⟩
    intro k hk
    rw [show COLUMNS.length = 15 from rfl] at hk
    interval_cases k <;> rfl
  · have hs : sanitize_row row = none := sanitize_row_short row (by omega)
    rw [hs]
    show row.length < max_col_index + 1 ∧
      ∀ cap s, totalDataRows (partStep cap s row) = totalDataRows s ∧
               (partStep cap s row).processed = s.processed + 1
    refine ⟨by omega, ?_⟩
    intro cap s
    by_cases hr : cap ≤ s.row_in_file
    · rw [partStep_mal_rot cap s row hs hr]
      exact ⟨by simp [totalDataRows_eq, dataRowCount], rfl⟩
    · rw [partStep_mal cap s row hs hr]
      exact ⟨by simp [totalDataRows_eq], rfl⟩

/-- C9: when executemany raises during a full-batch submission the per-row handler absorbs it: skipped grows by exactly one however large the batch is, imported and the committed batches are unchanged, the batch keeps all its records, and the next accepted record resubmits those same records successfully. -/
theorem sink_failure_preserves_batch (bs : Nat) (s : LoadState) (r r2 : CsvRow)
    (m m2 : MediaRecord) (hm : processRow r = some m) (hm2 : processRow r2 = some m2)
    (hfull : bs ≤ (s.batch ++ [m]).length) :
    (loadStep bs false s r).skipped = s.skipped + 1 ∧
    (loadStep bs false s r).imported = s.imported ∧
    (loadStep bs false s r).batch = s.batch ++ [m] ∧
    (loadStep bs false s r).committed = s.committed ∧
    (loadStep bs true (loadStep bs false s r) r2).committed
        = s.committed ++ [s.batch ++ [m] ++ [m2]] ∧
    (loadStep bs true (loadStep bs false s r) r2).imported
        = s.imported + (s.batch ++ [m] ++ [m2]).length := by
  rw [loadStep_some_full_fail bs s r m hm hfull]
  have hfull2 : bs ≤ ((s.batch ++ [m]) ++ [m2]).length := by
    simp only [List.length_append, List.length_cons, List.length_nil] at hfull ⊢
    omega
  rw [loadStep_some_full_ok bs _ r2 m2 hm2 (by simpa using hfull2)]
  refine ⟨rfl, rfl, rfl, rfl, rfl, rfl⟩

/-- Witness for C9 at batch size 1 from the initial loader state. -/
theorem sink_failure_preserves_batch_witness :
    (loadStep 1 false initLoadState demoRow).skipped = initLoadState.skipped + 1 ∧
    (loadStep 1 false initLoadState demoRow).imported = initLoadState.imported ∧
    (loadStep 1 false initLoadState demoRow).batch = initLoadState.batch ++ [demoRecord] ∧
    (loadStep 1 false initLoadState demoRow).committed = initLoadState.committed ∧
    (loadStep 1 true (loadStep 1 false initLoadState demoRow) demoRow).committed
        = initLoadState.committed ++ [initLoadState.batch ++ [demoRecord] ++ [demoRecord]] ∧
    (loadStep 1 true (loadStep 1 false initLoadState demoRow) demoRow).imported
        = initLoadState.imported + (initLoadState.batch ++ [demoRecord] ++ [demoRecord]).length :=
  sink_failure_preserves_batch 1 initLoadState demoRow demoRow demoRecord demoRecord
    (by decide) (by decide) (by decide)

/-- C10: rotation fires on reading any line while the open partition is full, before the malformedness test; a stream of one cap of well-formed lines followed only by malformed lines therefore ends with a final partition holding just the header row and zero data rows, still counted by file_index. -/
theorem trailing_malformed_empty_partition (good bad : List (List String))
    (h1 : good.length = 1000000)
    (h2 : ∀ r ∈ good, max_col_index + 1 ≤ r.length)
    (h3 : bad ≠ []) (h4 : ∀ r ∈ bad, r.length < max_col_index + 1) :
    (partRun ROWS_PER_FILE (good ++ bad)).current_file = [header] ∧
    (partRun ROWS_PER_FILE (good ++ bad)).file_index = 2 ∧
    (allPartitions (partRun ROWS_PER_FILE (good ++ bad))).map dataRowCount
        = [1000000, 0] := by
  have hRPF : ROWS_PER_FILE = 1000000 := rfl
  simp only [hRPF]
  obtain ⟨g1, g2, g3, g4, g5⟩ := partRun_wf_formula good h2
    (by intro h; rw [h] at h1; simp at h1)
  have hrif : (partRun 1000000 good).row_in_file = 1000000 := by
    rw [g2, h1]
  have hfi : (partRun 1000000 good).file_index = 1 := by
    rw [g3, h1]
  have hcl : (partRun 1000000 good).closed_files.map dataRowCount = [] := by
    rw [g4, h1]
    norm_num
  have hcur : dataRowCount (partRun 1000000 good).current_file = 1000000 := by
    simp [dataRowCount, g5, hrif]
  obtain ⟨b, rest, hb⟩ := List.exists_cons_of_ne_nil h3
  subst hb
  rw [partRun, List.foldl_append]
  have hfold : List.foldl (partStep 1000000) initPartState good = partRun 1000000 good := rfl
  rw [hfold, List.foldl_cons]
  rw [partStep_mal_rot 1000000 (partRun 1000000 good) b
    (sanitize_row_short b (h4 b (by simp))) (by omega)]
  rw [partRun_malformed_from 1000000 rest _ (by norm_num)
    (fun r hr => sanitize_row_short r (h4 r (by simp [hr])))]
  refine ⟨rfl, ?_, ?_⟩
  · show (partRun 1000000 good).file_index + 1 = 2
    omega
  · simp only [allPartitions]
    simp only [List.map_append, hcl]
    simp [hcur, dataRowCount]
    rw [g5, hrif]

/-- Witness for C10 with one million well-formed rows followed by one malformed row. -/
theorem trailing_malformed_empty_partition_witness :
    (partRun ROWS_PER_FILE (List.replicate 1000000 (List.replicate 15 "x") ++ [[]])).current_file
        = [header] ∧
    (partRun ROWS_PER_FILE (List.replicate 1000000 (List.replicate 15 "x") ++ [[]])).file_index
        = 2 ∧
    (allPartitions (partRun ROWS_PER_FILE
        (List.replicate 1000000 (List.replicate 15 "x") ++ [[]]))).map dataRowCount
        = [1000000, 0] :=
  trailing_malformed_empty_partition (List.replicate 1000000 (List.replicate 15 "x")) [[]]
    (List.length_replicate ..)
    (fun r hr => by rw [List.eq_of_mem_replicate hr]; decide)
    (by simp)
    (fun r hr => by rw [List.mem_singleton.1 hr]; decide)
